import Mathlib

/-!
Shallow embedding of the WordSpark HTTP download core:
`src/py_src/base/http/downloader.py`, `src/py_src/base/timer.py` and
`src/py_src/base/http/advanced.py`, together with the narrow parts of the
missing `io.py` / `cache.py` collaborators modelled from the specification.

Bytes are `Nat`, file contents are `List Nat`, and the abstract range
server `srv : Nat → Nat → List Nat` maps an issued `(pos_start, pos_end)`
pair to the body bytes the response streams back.  The while-loop of
`download_ranges` is embedded with an explicit fuel parameter: `none`
means the loop has not exited within `fuel` iterations.
-/

namespace WordSpark

/-- The mutable `requests.Session` state relevant to the downloader: the
current value of the `Range` header.  Only this header is read or written
by `downloader.py`; `basic.py` constructs the session with it unset. -/
structure Session where
  rangeHeader : Option String
deriving DecidableEq

/-- Source `downloader.py` `_resume_download`, lines 92-94: the Range header string
is `"bytes={pos_start}-"` and, when `pos_end` is truthy (nonzero), the end
position is appended. -/
def mkRange (posStart posEnd : Nat) : String :=
  let r := "bytes=" ++ toString posStart ++ "-"
  if posEnd ≠ 0 then r ++ toString posEnd else r

/-- Source `downloader.py` `_resume_download`, lines 80-98: store the Range header
on the session and issue the GET; the abstract server `srv` supplies the
response body for the issued window. -/
def resumeDownload (srv : Nat → Nat → List Nat) (_s : Session)
    (posStart posEnd : Nat) : Session × List Nat :=
  (⟨some (mkRange posStart posEnd)⟩, srv posStart posEnd)

/-- Source `downloader.py` `download_ranges` while-loop, lines 132-167 (success
statuses only, so `raise_for_status` never fires): re-read the file size,
exit when it reaches `totalSize`, otherwise request the window
`(file_size, min (file_size + block_size) total_size)`, append the body,
and exit when `pos_end` reached `totalSize`.  The result carries the final
session, the final file content and the list of issued windows. -/
def rangesLoop (srv : Nat → Nat → List Nat) (totalSize blockSize : Nat) :
    Nat → Session → List Nat → List (Nat × Nat) →
    Option (Session × List Nat × List (Nat × Nat))
  | 0, _, _, _ => none
  | fuel + 1, sess, content, ws =>
    if content.length ≥ totalSize then some (sess, content, ws)
    else
      let posEnd := min (content.length + blockSize) totalSize
      let rb := resumeDownload srv sess content.length posEnd
      if posEnd ≥ totalSize then
        some (rb.1, content ++ rb.2, ws ++ [(content.length, posEnd)])
      else
        rangesLoop srv totalSize blockSize fuel rb.1 (content ++ rb.2)
          (ws ++ [(content.length, posEnd)])

/-- Size-level image of `rangesLoop`: the loop observed through the length
of the file content (the server is observed through the length of each
body).  Proven to simulate `rangesLoop` below. -/
def sizeLoop (srvLen : Nat → Nat → Nat) (totalSize blockSize : Nat) :
    Nat → Nat → List (Nat × Nat) → Option (Nat × List (Nat × Nat))
  | 0, _, _ => none
  | fuel + 1, size, ws =>
    if size ≥ totalSize then some (size, ws)
    else
      let posEnd := min (size + blockSize) totalSize
      if posEnd ≥ totalSize then
        some (size + srvLen size posEnd, ws ++ [(size, posEnd)])
      else
        sizeLoop srvLen totalSize blockSize fuel (size + srvLen size posEnd)
          (ws ++ [(size, posEnd)])

/-- Test server that delivers exactly the advisory half-open window
`[posStart, posEnd)`: `posEnd - posStart` bytes. -/
def srvExact : Nat → Nat → List Nat := fun a b => List.replicate (b - a) 0

/-- Test server whose range responses always have an empty body. -/
def srvEmpty : Nat → Nat → List Nat := fun _ _ => []

/-- Observable outcome of one `download_ranges` call on a `Path`
destination. -/
inductive RangesCall where
  | diverged
  | sizeError (raised : Bool)
  | finished (result : Bool) (sess : Session) (content : List Nat)
      (windows : List (Nat × Nat))
deriving DecidableEq

/-- Source `downloader.py` `download_ranges`, lines 100-175, for a `Path`
destination and success statuses.  `IO.file_del` — modelled from the spec:
with `resume=false` the destination is first truncated/deleted so the
transfer starts from an empty file (spec §4.2.3a and §6; `io.py` is not in
the sources).  A zero `totalSize` raises `ValueError` when `debug` and
returns `False` otherwise; after the loop the returned boolean is
`file_size >= total_size`. -/
def download_ranges (srv : Nat → Nat → List Nat) (totalSize blockSize : Nat)
    (resume debug : Bool) (init : List Nat) (s0 : Session) (fuel : Nat) :
    RangesCall :=
  let content0 := if resume then init else []
  if totalSize = 0 then .sizeError debug
  else
    match rangesLoop srv totalSize blockSize fuel s0 content0 [] with
    | none => .diverged
    | some (sess, content, ws) =>
      .finished (decide (content.length ≥ totalSize)) sess content ws

/-- Observable outcome of `download_direct`. -/
structure DirectResult where
  sessionAfter : Session
  sentRange : Option String
  result : Bool
  content : List Nat

/-- Source `downloader.py` `download_direct`, lines 53-78 (success path): a plain
`get` sends the session headers unchanged and does not touch the session;
the destination is opened `"wb"` (truncated) and the whole body is written;
the returned boolean is `file_size >= total_size` where `total_size` is the
content-length declared by the response. -/
def download_direct (s : Session) (totalSize : Nat) (body : List Nat) :
    DirectResult :=
  { sessionAfter := s
    sentRange := s.rangeHeader
    result := decide (body.length ≥ totalSize)
    content := body }

/-- RFC 7233 semantics of a byte-range-spec `"first-last"`: it covers every
byte index `i` with `first ≤ i ≤ last` that lies inside the resource
(`i < len`); the last-byte-pos is inclusive. -/
def byteRangeSpecCovers (first lastPos len i : Nat) : Prop :=
  first ≤ i ∧ i ≤ lastPos ∧ i < len

/-- The half-open byte window `[a, b)` named by the claim. -/
def halfOpenWindow (a b i : Nat) : Prop := a ≤ i ∧ i < b

/-- Source `timer.py` `Delayer.between`, lines 110-115, as a relation: the pause
is some value drawn uniformly from the closed interval `[lo, hi]`. -/
abbrev Delayer.between (lo hi v : ℚ) : Prop := lo ≤ v ∧ v ≤ hi

/-- Source `timer.py` `Delayer.more_than`, lines 127-137: a pause between `base`
and `base + base * percentage` (the caller guarantees
`0 < percentage < 1`, asserted in the source). -/
abbrev Delayer.more_than (base percentage v : ℚ) : Prop :=
  Delayer.between base (base + base * percentage) v

/-- Source `timer.py` `Delayer.backoff`, lines 151-182: `factor = max(factor, 2)`;
`exponent = factor * 2**errors if errors else factor`; delegate to
`more_than(base * exponent, percentage)`. -/
abbrev Delayer.backoff (base : ℚ) (factor : ℤ) (errors : ℕ)
    (percentage v : ℚ) : Prop :=
  Delayer.more_than
    (base * (((if errors ≠ 0 then max factor 2 * 2 ^ errors
               else max factor 2) : ℤ) : ℚ))
    percentage v

/-- Modelled from the spec: the `MemoryCache` error window of the missing
`cache.py` (spec §3 `ErrorRecord` and §4.4 `ErrorWindow`): a retention
period in seconds and a list of `(timestamp, key)` records. -/
structure MemoryCache where
  seconds : Nat
  entries : List (Nat × String)
deriving DecidableEq

/-- Modelled from the spec: `Add(key)` records one entry now (spec §4.4). -/
def MemoryCache.add (c : MemoryCache) (now : Nat) (key : String) :
    MemoryCache :=
  ⟨c.seconds, c.entries ++ [(now, key)]⟩

/-- Modelled from the spec: `Size()` counts the non-expired entries, those
of age strictly below the retention period (spec §4.4). -/
def MemoryCache.size (c : MemoryCache) (now : Nat) : Nat :=
  (c.entries.filter (fun e => now - e.1 < c.seconds)).length

/-- The `requests` library predicate `Response.ok`: status below 400. -/
def responseOk (status : Nat) : Bool := decide (status < 400)

/-- Source `advanced.py` `HTTPClient.req`, lines 167-185: once the request
completes with a response, if `_errors` is present (`use_delay=True`) a
record with key `"error"` is appended — unconditionally, whatever the
response status is; the `status` argument is not consulted. -/
def reqRecordErrors (errors : Option MemoryCache) (now : Nat)
    (status : Nat) : Option MemoryCache :=
  errors.map (fun c => c.add now "error")

/-- Source `downloader.py` `_has_range`, lines 37-41: `"Accept-Ranges"` is a key
of the response headers (the value is not consulted). -/
def hasRange (hd : List (String × String)) : Bool :=
  hd.any (fun p => p.1 == "Accept-Ranges")

/-- The claim's predicate, from its words: the response declares
range-acceptance capability, i.e. the server advertises that it accepts
byte-range requests — an `Accept-Ranges` header naming a range unit other
than `"none"` (RFC 7233: the value `none` advertises that no range
requests are accepted). -/
def declaresRangeAcceptance (hd : List (String × String)) : Bool :=
  hd.any (fun p => p.1 == "Accept-Ranges" && p.2 != "none")

/-- ASCII lower-casing of one character, for case-insensitive header
lookup. -/
def lowerChar (c : Char) : Char :=
  if 65 ≤ c.toNat ∧ c.toNat ≤ 90 then Char.ofNat (c.toNat + 32) else c

/-- ASCII lower-casing of a string. -/
def lowerStr (s : String) : String := String.mk (s.data.map lowerChar)

/-- The numeric value of a decimal digit character, if it is one. -/
def digitVal? (c : Char) : Option Nat :=
  if 48 ≤ c.toNat ∧ c.toNat ≤ 57 then some (c.toNat - 48) else none

/-- Parse a nonempty all-digit character list as a natural number. -/
def parseNatDigits (cs : List Char) : Option Nat :=
  if cs.isEmpty then none
  else
    cs.foldl
      (fun acc c =>
        match acc, digitVal? c with
        | some n, some d => some (n * 10 + d)
        | _, _ => none)
      (some 0)

/-- Python `int(...)` applied to a header value: an optional sign followed
by decimal digits (the whitespace- and underscore-tolerant forms Python
also accepts do not occur in the claims). -/
def parseInt? (s : String) : Option Int :=
  match s.data with
  | '-' :: cs => (parseNatDigits cs).map (fun n => -(n : Int))
  | '+' :: cs => (parseNatDigits cs).map (fun n => (n : Int))
  | cs => (parseNatDigits cs).map (fun n => (n : Int))

/-- Source `downloader.py` `_file_size`, lines 43-51: parse the content-length
header of the optional response; a missing response, a missing header or
an unparsable value yields 0.  Header lookup is case-insensitive as in the
`requests` header dictionary. -/
def fileSizeOf (response : Option (List (String × String))) : Int :=
  match response with
  | none => 0
  | some hd =>
    match hd.find? (fun p => lowerStr p.1 == "content-length") with
    | none => 0
    | some p =>
      match parseInt? p.2 with
      | none => 0
      | some n => n

/-- Observable outcome of `download` up to its strategy dispatch. -/
inductive DownloadCall where
  | returnsFalse
  | raisesValueError
  | proceeds (ranged : Bool)
deriving DecidableEq

/-- Source `downloader.py` `download`, lines 177-208, up to the dispatch between
ranged and direct transfer: a missing HEAD response returns `False` (before
any debug check); a zero parsed size raises `ValueError` when `debug` and
returns `False` otherwise; otherwise the transfer proceeds, ranged exactly
when `_has_range` holds of the HEAD response headers. -/
def download (response : Option (List (String × String))) (debug : Bool) :
    DownloadCall :=
  match response with
  | none => .returnsFalse
  | some hd =>
    if fileSizeOf (some hd) = 0 then
      if debug then .raisesValueError else .returnsFalse
    else .proceeds (hasRange hd)

/-- Observable outcome of `download_ranges` on a `str` destination. -/
inductive StrDestCall where
  | returns (b : Bool)
  | raisesValueError
  | raisesAttributeError
deriving DecidableEq

/-- Source `downloader.py` `download_ranges`, lines 100-135, called with a `str`
destination (the declared type is `Union[Path, str]`).  `IO.file_del` —
modelled from the spec as removing the destination whatever its type
(§4.2.3a; `io.py` is not in the sources); `open(file_out, "ab+")` accepts a
`str`.  With a sized resource the first loop iteration evaluates
`file_out.stat()`, and `str` has no `stat` attribute, so the call raises
`AttributeError` before anything else can happen. -/
def download_ranges_strDest (totalSize : Nat) (debug : Bool) : StrDestCall :=
  if totalSize = 0 then
    if debug then .raisesValueError else .returns false
  else .raisesAttributeError

/-! ### Loop lemmas -/

/-- The ranged loop only appends to the file content and to the window
trace. -/
theorem rangesLoop_append (srv : Nat → Nat → List Nat) (T B : Nat) :
    ∀ (fuel : Nat) (s : Session) (c : List Nat) (w : List (Nat × Nat))
      (r : Session × List Nat × List (Nat × Nat)),
      rangesLoop srv T B fuel s c w = some r →
      (∃ t, r.2.1 = c ++ t) ∧ ∃ u, r.2.2 = w ++ u := by
  intro fuel
  induction fuel with
  | zero => intro s c w r h; simp [rangesLoop] at h
  | succ n ih =>
    intro s c w r h
    simp only [rangesLoop] at h
    by_cases h1 : c.length ≥ T
    · rw [if_pos h1] at h
      cases h
      exact ⟨⟨[], by simp⟩, ⟨[], by simp⟩⟩
    · rw [if_neg h1] at h
      by_cases h2 : min (c.length + B) T ≥ T
      · rw [if_pos h2] at h
        cases h
        exact ⟨⟨_, rfl⟩, ⟨_, rfl⟩⟩
      · rw [if_neg h2] at h
        obtain ⟨⟨t, ht⟩, ⟨u, hu⟩⟩ := ih _ _ _ _ h
        exact ⟨⟨_, by rw [ht, List.append_assoc]⟩,
               ⟨_, by rw [hu, List.append_assoc]⟩⟩

/-- When the loop body is entered, the first issued window is
`(c.length, min (c.length + B) T)`. -/
theorem rangesLoop_first_window (srv : Nat → Nat → List Nat) (T B : Nat)
    (fuel : Nat) (s : Session) (c : List Nat) (w : List (Nat × Nat))
    (r : Session × List Nat × List (Nat × Nat))
    (hc : c.length < T) (h : rangesLoop srv T B fuel s c w = some r) :
    ∃ u, r.2.2 = w ++ (c.length, min (c.length + B) T) :: u := by
  cases fuel with
  | zero => simp [rangesLoop] at h
  | succ n =>
    simp only [rangesLoop] at h
    rw [if_neg (by omega)] at h
    by_cases h2 : min (c.length + B) T ≥ T
    · rw [if_pos h2] at h
      cases h
      exact ⟨[], by simp⟩
    · rw [if_neg h2] at h
      obtain ⟨_, ⟨u, hu⟩⟩ := rangesLoop_append srv T B n _ _ _ _ h
      exact ⟨u, by rw [hu]; simp⟩

/-- Every window the loop issues has end `min (start + B) T`. -/
theorem rangesLoop_window_shape (srv : Nat → Nat → List Nat) (T B : Nat) :
    ∀ (fuel : Nat) (s : Session) (c : List Nat) (w : List (Nat × Nat))
      (r : Session × List Nat × List (Nat × Nat)),
      (∀ p ∈ w, p.2 = min (p.1 + B) T) →
      rangesLoop srv T B fuel s c w = some r →
      ∀ p ∈ r.2.2, p.2 = min (p.1 + B) T := by
  intro fuel
  induction fuel with
  | zero => intro s c w r hw h; simp [rangesLoop] at h
  | succ n ih =>
    intro s c w r hw h
    simp only [rangesLoop] at h
    by_cases h1 : c.length ≥ T
    · rw [if_pos h1] at h; cases h; exact hw
    · rw [if_neg h1] at h
      have hw2 : ∀ p ∈ w ++ [(c.length, min (c.length + B) T)],
          p.2 = min (p.1 + B) T := by
        intro p hp
        rcases List.mem_append.mp hp with hp | hp
        · exact hw p hp
        · simp only [List.mem_singleton] at hp
          subst hp
          rfl
      by_cases h2 : min (c.length + B) T ≥ T
      · rw [if_pos h2] at h; cases h; exact hw2
      · rw [if_neg h2] at h; exact ih _ _ _ _ hw2 h

/-- Lemma: `sizeLoop` is the image of `rangesLoop` under content length. -/
theorem rangesLoop_sim (srv : Nat → Nat → List Nat) (T B : Nat) :
    ∀ (fuel : Nat) (s : Session) (c : List Nat) (w : List (Nat × Nat)),
      (rangesLoop srv T B fuel s c w).map (fun r => (r.2.1.length, r.2.2)) =
        sizeLoop (fun a b => (srv a b).length) T B fuel c.length w := by
  intro fuel
  induction fuel with
  | zero => intro s c w; rfl
  | succ n ih =>
    intro s c w
    simp only [rangesLoop, sizeLoop]
    by_cases h1 : c.length ≥ T
    · rw [if_pos h1, if_pos h1]; rfl
    · rw [if_neg h1, if_neg h1]
      by_cases h2 : min (c.length + B) T ≥ T
      · rw [if_pos h2, if_pos h2]
        simp [resumeDownload, List.length_append]
      · rw [if_neg h2, if_neg h2]
        have h3 := ih (⟨some (mkRange c.length (min (c.length + B) T))⟩)
          (c ++ srv c.length (min (c.length + B) T))
          (w ++ [(c.length, min (c.length + B) T)])
        rw [List.length_append] at h3
        simpa [resumeDownload] using h3

/-- With every response body empty, the ranged loop starting from an empty
file and a 5,000,000-byte resource never exits, whatever the fuel. -/
theorem rangesLoop_srvEmpty (fuel : Nat) :
    ∀ (s : Session) (w : List (Nat × Nat)),
      rangesLoop srvEmpty 5000000 1048576 fuel s [] w = none := by
  induction fuel with
  | zero => intro s w; rfl
  | succ n ih =>
    intro s w
    simp only [rangesLoop]
    rw [if_neg (by decide), if_neg (by decide)]
    simpa [srvEmpty, resumeDownload] using ih _ _

/-! ### Claims -/

/-- C1: the claim says that when every range response has an empty body,
`download_ranges` terminates with a `ZeroProgress` failure after a bounded
number of iterations.  The code has no zero-progress handling at all: with
an empty destination, a 5,000,000-byte resource and the default 1 MiB block
size, no exit condition ever fires and the while-loop runs forever — for
every iteration bound the call is still looping. -/
theorem c1_zero_progress_diverges (fuel : Nat) (s0 : Session) :
    download_ranges srvEmpty 5000000 1048576 false false [] s0 fuel =
      .diverged := by
  simp [download_ranges, rangesLoop_srvEmpty]

/-- C3: for every completed transfer, direct or ranged, the returned
boolean is true exactly when the final destination size is at least the
expected total size, and a direct transfer ending below the expected size
returns failure. -/
theorem c3_success_iff_size :
    (∀ (s : Session) (T : Nat) (body : List Nat),
      ((download_direct s T body).result = true ↔
        T ≤ (download_direct s T body).content.length) ∧
      ((download_direct s T body).content.length < T →
        (download_direct s T body).result = false)) ∧
    (∀ (srv : Nat → Nat → List Nat) (T B : Nat) (resume debug : Bool)
       (init : List Nat) (s0 : Session) (fuel : Nat) (res : Bool)
       (sess : Session) (content : List Nat) (ws : List (Nat × Nat)),
      download_ranges srv T B resume debug init s0 fuel =
        .finished res sess content ws →
      (res = true ↔ T ≤ content.length)) := by
  constructor
  · intro s T body
    constructor
    · simp [download_direct, ge_iff_le]
    · intro hlt
      simp only [download_direct] at hlt ⊢
      simp only [decide_eq_false_iff_not]
      omega
  · intro srv T B resume debug init s0 fuel res sess content ws h
    simp only [download_ranges] at h
    by_cases hT : T = 0
    · rw [if_pos hT] at h; cases h
    · rw [if_neg hT] at h
      rcases hloop : rangesLoop srv T B fuel s0
          (if resume then init else []) [] with _ | ⟨s1, c1, w1⟩ <;>
        rw [hloop] at h
      · cases h
      · cases h
        simp [ge_iff_le]

/-- C3 witness: the iff and the failure case evaluated at concrete runs. -/
theorem c3_success_iff_size_witness :
    (true = true ↔ (10 : Nat) ≤ (List.replicate 10 (0 : Nat)).length) ∧
    (download_direct ⟨none⟩ 5 [0, 0, 0]).result = false :=
  ⟨c3_success_iff_size.2 srvExact 10 16 false false [] ⟨none⟩ 2 true
      ⟨some "bytes=0-10"⟩ (List.replicate 10 0) [(0, 10)] (by decide),
   (c3_success_iff_size.1 ⟨none⟩ 5 [0, 0, 0]).2 (by decide)⟩

/-- The spec's example run: a 5,000,000-byte resource, 1 MiB blocks, an
empty starting file, and a server that delivers exactly the advisory
half-open window of each request: the loop finishes at size 5,000,000
after issuing exactly the five windows of the spec. -/
theorem rangesLoop_example_run :
    ∃ r, rangesLoop srvExact 5000000 1048576 10 ⟨none⟩ [] [] = some r ∧
      r.2.1.length = 5000000 ∧
      r.2.2 = [(0, 1048576), (1048576, 2097152), (2097152, 3145728),
               (3145728, 4194304), (4194304, 5000000)] := by
  have hs : (fun a b => (srvExact a b).length) = fun a b => b - a := by
    funext a b; simp [srvExact]
  have h := rangesLoop_sim srvExact 5000000 1048576 10 ⟨none⟩ [] []
  rw [hs] at h
  simp only [List.length_nil] at h
  rw [show sizeLoop (fun a b => b - a) 5000000 1048576 10 0 [] =
      some (5000000,
        [(0, 1048576), (1048576, 2097152), (2097152, 3145728),
         (3145728, 4194304), (4194304, 5000000)]) from by decide] at h
  obtain ⟨r, hr, hf⟩ := Option.map_eq_some'.mp h
  refine ⟨r, hr, ?_, ?_⟩
  · have h1 := congrArg Prod.fst hf
    simpa using h1
  · have h2 := congrArg Prod.snd hf
    simpa using h2

/-- C2 counterexample: the claim says each issued range request covers
exactly the half-open window `[bytesWritten, windowEnd)`.  The first
request of the spec's own example is the header `bytes=0-1048576`, whose
last-byte-pos is inclusive under RFC 7233, so it covers byte 1048576 —
a byte outside the claimed half-open window `[0, 1048576)`. -/
theorem c2_window_counterexample :
    mkRange 0 1048576 = "bytes=0-1048576" ∧
    (∃ r, rangesLoop srvExact 5000000 1048576 10 ⟨none⟩ [] [] = some r ∧
      r.2.2.head? = some (0, 1048576)) ∧
    byteRangeSpecCovers 0 1048576 5000000 1048576 ∧
    ¬ halfOpenWindow 0 1048576 1048576 := by
  refine ⟨by decide, ?_, ⟨by decide, by decide, by decide⟩, ?_⟩
  · obtain ⟨r, hr, _, hw⟩ := rangesLoop_example_run
    exact ⟨r, hr, by rw [hw]; rfl⟩
  · intro hC
    exact absurd hC.2 (by decide)

/-- C2 (amended): every iteration issues the range request
`(bytesWritten, windowEnd)` with `windowEnd = min (bytesWritten + blockSize)
expectedSize`, sent as the header `bytes=start-end` whose end is inclusive
under HTTP semantics (one byte beyond the claimed half-open window); and
when every response contributes exactly `windowEnd - bytesWritten` bytes,
the `N = 5,000,000`, `blockSize = 1,048,576` example performs exactly 5
iterations with the five listed windows. -/
theorem c2_windows_amended :
    (∀ (srv : Nat → Nat → List Nat) (T B fuel : Nat) (s : Session)
       (c : List Nat) (r : Session × List Nat × List (Nat × Nat)),
      rangesLoop srv T B fuel s c [] = some r →
      ∀ p ∈ r.2.2, p.2 = min (p.1 + B) T) ∧
    (∃ r, rangesLoop srvExact 5000000 1048576 10 ⟨none⟩ [] [] = some r ∧
      r.2.1.length = 5000000 ∧
      r.2.2 = [(0, 1048576), (1048576, 2097152), (2097152, 3145728),
               (3145728, 4194304), (4194304, 5000000)]) := by
  refine ⟨?_, rangesLoop_example_run⟩
  intro srv T B fuel s c r h
  exact rangesLoop_window_shape srv T B fuel s c [] r (by simp) h

/-- C2 witness: the window shape applied to the first window of a concrete
completed run. -/
theorem c2_windows_amended_witness : (10 : Nat) = min (0 + 16) 10 :=
  c2_windows_amended.1 srvExact 10 16 2 ⟨none⟩ []
    (⟨some "bytes=0-10"⟩, List.replicate 10 0, [(0, 10)]) (by decide)
    (0, 10) (by decide)

/-- C4: with `resume=true` and a destination already holding the first `k`
bytes (`0 < k < N`), the first issued range request starts at offset `k`,
the loop only appends (the initial `k` bytes are a prefix of the final
content), and a successful return implies the final size is at least `N`;
with `resume=false` the destination is first emptied and the first request
starts at offset 0. -/
theorem c4_resume_semantics :
    (∀ (srv : Nat → Nat → List Nat) (T B : Nat) (debug : Bool)
       (init : List Nat) (s0 : Session) (fuel : Nat) (res : Bool)
       (sess : Session) (content : List Nat) (ws : List (Nat × Nat)),
      0 < init.length → init.length < T →
      download_ranges srv T B true debug init s0 fuel =
        .finished res sess content ws →
      (∃ t, content = init ++ t) ∧
      ws.head? = some (init.length, min (init.length + B) T) ∧
      (res = true → T ≤ content.length)) ∧
    (∀ (srv : Nat → Nat → List Nat) (T B : Nat) (debug : Bool)
       (init : List Nat) (s0 : Session) (fuel : Nat) (res : Bool)
       (sess : Session) (content : List Nat) (ws : List (Nat × Nat)),
      0 < T →
      download_ranges srv T B false debug init s0 fuel =
        .finished res sess content ws →
      ws.head? = some (0, min B T)) := by
  constructor
  · intro srv T B debug init s0 fuel res sess content ws hk hkT h
    simp only [download_ranges, if_true] at h
    rw [if_neg (by omega)] at h
    rcases hloop : rangesLoop srv T B fuel s0 init [] with _ | ⟨s1, c1, w1⟩ <;>
      rw [hloop] at h
    · cases h
    · cases h
      refine ⟨?_, ?_, ?_⟩
      · have := (rangesLoop_append srv T B fuel s0 init [] _ hloop).1
        exact this
      · obtain ⟨u, hu⟩ :=
          rangesLoop_first_window srv T B fuel s0 init [] _ hkT hloop
        simp only at hu
        rw [hu]
        simp
      · intro hres
        exact of_decide_eq_true hres
  · intro srv T B debug init s0 fuel res sess content ws hT h
    simp only [download_ranges, Bool.false_eq_true, if_false] at h
    rw [if_neg (by omega)] at h
    rcases hloop : rangesLoop srv T B fuel s0 [] [] with _ | ⟨s1, c1, w1⟩ <;>
      rw [hloop] at h
    · cases h
    · cases h
      obtain ⟨u, hu⟩ :=
        rangesLoop_first_window srv T B fuel s0 [] [] _ (by simpa) hloop
      simp only [List.length_nil, Nat.zero_add] at hu
      rw [hu]
      simp

/-- C4 witness: both halves applied to concrete completed runs. -/
theorem c4_resume_semantics_witness :
    ([(1, 2)] : List (Nat × Nat)).head? = some (1, min (1 + 16) 2) ∧
    ([(0, 2)] : List (Nat × Nat)).head? = some (0, min 16 2) :=
  ⟨(c4_resume_semantics.1 srvExact 2 16 false [7] ⟨none⟩ 2 true
      ⟨some "bytes=1-2"⟩ [7, 0] [(1, 2)] (by decide) (by decide)
      (by decide)).2.1,
   c4_resume_semantics.2 srvExact 2 16 false [9] ⟨none⟩ 2 true
      ⟨some "bytes=0-2"⟩ (List.replicate 2 0) [(0, 2)] (by decide) (by decide)⟩

/-- C5: for every base > 0, integer factor ≥ 2 and percentage in (0,1),
every pause `Delayer.backoff` can return for error count n+1 is strictly
greater than every pause it can return for error count n, for n = 0..9. -/
theorem c5_backoff_strictly_increasing
    (base percentage v w : ℚ) (factor : ℤ) (n : ℕ)
    (hb : 0 < base) (hf : 2 ≤ factor) (hp0 : 0 < percentage)
    (hp1 : percentage < 1) (hn : n ≤ 9)
    (hv : Delayer.backoff base factor n percentage v)
    (hw : Delayer.backoff base factor (n + 1) percentage w) : v < w := by
  have hfq : (2 : ℚ) ≤ (factor : ℚ) := by exact_mod_cast hf
  have hfpos : (0 : ℚ) < (factor : ℚ) := lt_of_lt_of_le two_pos hfq
  unfold Delayer.backoff Delayer.more_than Delayer.between at hv hw
  rw [max_eq_left hf] at hv hw
  rw [if_pos (Nat.succ_ne_zero n)] at hw
  have hv2 : base * ((factor : ℚ) * 2 ^ n) ≤ v ∧
      v ≤ base * ((factor : ℚ) * 2 ^ n) +
        base * ((factor : ℚ) * 2 ^ n) * percentage := by
    cases n with
    | zero =>
      rw [if_neg (by simp)] at hv
      simpa using hv
    | succ k =>
      rw [if_pos (Nat.succ_ne_zero k)] at hv
      push_cast at hv
      exact hv
  have hw2 : base * ((factor : ℚ) * 2 ^ (n + 1)) ≤ w := by
    have h1 := hw.1
    push_cast at h1
    exact h1
  have hX : (0 : ℚ) < base * ((factor : ℚ) * 2 ^ n) :=
    mul_pos hb (mul_pos hfpos (by positivity))
  rw [pow_succ] at hw2
  nlinarith [hv2.2, hw2, hX, hp1]

/-- C5 witness: with base 1, factor 2, percentage 1/2, the pause 3 is
attainable at error count 0 and the pause 4 at error count 1. -/
theorem c5_backoff_strictly_increasing_witness : (3 : ℚ) < 4 :=
  c5_backoff_strictly_increasing 1 (1/2) 3 4 2 0 (by norm_num) (by norm_num)
    (by norm_num) (by norm_num) (by norm_num)
    (by norm_num [Delayer.backoff, Delayer.more_than, Delayer.between,
      max_self])
    (by norm_num [Delayer.backoff, Delayer.more_than, Delayer.between,
      max_self])

/-- C6: the claim says a request completing with a successful response
leaves the error window's count unchanged.  The code appends a record on
every completed request whenever delaying is enabled: after a request
completing with status 200 — a successful response — the error count has
grown from 0 to 1. -/
theorem c6_error_recorded_on_success :
    responseOk 200 = true ∧
    reqRecordErrors (some ⟨3600, []⟩) 1000 200 =
      some ⟨3600, [(1000, "error")]⟩ ∧
    MemoryCache.size ⟨3600, []⟩ 1000 = 0 ∧
    MemoryCache.size ⟨3600, [(1000, "error")]⟩ 1000 = 1 :=
  ⟨rfl, rfl, rfl, rfl⟩

/-- C7 counterexample: the claim says every request issued outside the
ranged loop — for example any later request after a ranged download has
completed — carries no Range header.  After the completed ranged run the
session still stores the last Range header, and a subsequent direct
request sends it. -/
theorem c7_range_header_counterexample :
    rangesLoop srvExact 10 16 2 ⟨none⟩ [] [] =
      some (⟨some "bytes=0-10"⟩, List.replicate 10 0, [(0, 10)]) ∧
    (download_direct ⟨some "bytes=0-10"⟩ 10
        (List.replicate 10 0)).sentRange = some "bytes=0-10" ∧
    some "bytes=0-10" ≠ (none : Option String) :=
  ⟨by decide, rfl, by decide⟩

/-- C7 (amended): only the ranged fetch sets the Range header — a direct
transfer leaves the session untouched and sends whatever Range value the
session holds, so a request on a session that never performed a ranged
fetch carries none — but the header persists on the shared session, so a
request issued after a completed ranged download still carries the last
range value. -/
theorem c7_range_header_amended :
    (∀ (s : Session) (T : Nat) (body : List Nat),
      (download_direct s T body).sessionAfter = s ∧
      (download_direct s T body).sentRange = s.rangeHeader) ∧
    (∀ (srv : Nat → Nat → List Nat) (s : Session) (a b : Nat),
      (resumeDownload srv s a b).1.rangeHeader = some (mkRange a b)) ∧
    (download_direct ⟨none⟩ 3 [0]).sentRange = none ∧
    (∃ r, rangesLoop srvExact 10 16 2 ⟨none⟩ [] [] = some r ∧
      (download_direct r.1 10 []).sentRange = some "bytes=0-10") := by
  refine ⟨fun s T body => ⟨rfl, rfl⟩, fun srv s a b => rfl, rfl, ?_⟩
  exact ⟨(⟨some "bytes=0-10"⟩, List.replicate 10 0, [(0, 10)]),
    by decide, rfl⟩

/-- C8 counterexample: the claim says rangeCapable is true iff the
response advertises that it accepts byte-range requests.  A response whose
only relevant header is `Accept-Ranges: none` advertises exactly the
opposite, yet `_has_range` reports true because it only tests for the
key's presence. -/
theorem c8_range_capable_counterexample :
    hasRange [("Accept-Ranges", "none")] = true ∧
    declaresRangeAcceptance [("Accept-Ranges", "none")] = false := by decide

/-- C8 (amended): rangeCapable is true iff an `Accept-Ranges` header is
present in the response, irrespective of its value. -/
theorem c8_range_capable_amended (hd : List (String × String)) :
    hasRange hd = true ↔ ∃ v, ("Accept-Ranges", v) ∈ hd := by
  simp only [hasRange, List.any_eq_true, beq_iff_eq]
  constructor
  · rintro ⟨⟨k, v⟩, hmem, rfl⟩
    exact ⟨v, hmem⟩
  · rintro ⟨v, hv⟩
    exact ⟨("Accept-Ranges", v), hv, rfl⟩

/-- C9 counterexample: the claim says a size-unknown download returns
False in non-debug mode and raises in debug mode.  When the HEAD request
yields no response at all, the code returns False even in debug mode: the
None check precedes every debug branch. -/
theorem c9_size_unknown_counterexample :
    download none true = .returnsFalse ∧
    DownloadCall.returnsFalse ≠ DownloadCall.raisesValueError := by decide

/-- C9 (amended): when the metadata request yields no response, download
returns False in both modes; when it yields a response without a parsable
content-length the probe reports size 0 and download returns False in
non-debug mode and raises ValueError in debug mode; in every such case no
transfer is started. -/
theorem c9_size_unknown_amended
    (hd : List (String × String)) (debug : Bool)
    (response : Option (List (String × String))) :
    download none debug = .returnsFalse ∧
    (fileSizeOf (some hd) = 0 →
      download (some hd) debug =
        if debug then .raisesValueError else .returnsFalse) ∧
    ((response = none ∨ fileSizeOf response = 0) →
      ∀ b, download response debug ≠ .proceeds b) := by
  refine ⟨rfl, ?_, ?_⟩
  · intro h0
    simp [download, h0]
  · rintro (rfl | h0) b
    · simp [download]
    · cases response with
      | none => simp [download]
      | some hd2 => cases debug <;> simp [download, h0]

/-- C9 witness: at the concrete size-unknown input, no transfer starts. -/
theorem c9_size_unknown_amended_witness :
    download none true ≠ DownloadCall.proceeds true :=
  (c9_size_unknown_amended [] true none).2.2 (Or.inl rfl) true

/-- C10: calling `download_ranges` with a `str` destination and a sized
resource raises `AttributeError` at the file-size check (a `str` has no
`stat`) instead of returning a boolean: the declared `Union[Path, str]`
interface is total only for `Path` arguments. -/
theorem c10_str_destination (totalSize : Nat) (debug : Bool)
    (h : 0 < totalSize) :
    download_ranges_strDest totalSize debug = .raisesAttributeError ∧
    ∀ b, download_ranges_strDest totalSize debug ≠ .returns b := by
  have hT : totalSize ≠ 0 := by omega
  exact ⟨by simp [download_ranges_strDest, hT],
    fun b => by simp [download_ranges_strDest, hT]⟩

/-- C10 witness: the AttributeError outcome at a concrete sized resource. -/
theorem c10_str_destination_witness :
    download_ranges_strDest 1 false = StrDestCall.raisesAttributeError :=
  (c10_str_destination 1 false (by decide)).1

end WordSpark
